import Mathlib

/-!
Verification development for the c19-dashboard plotting pipeline (plot.py).

The Python source is shallowly embedded: pandas dataframes become lists of
records, file reads become an explicit environment mapping paths to results,
and the two regular expressions in the source are embedded as deterministic
character-list parsers (the regexes are unambiguous on their inputs, see the
comments at each definition).  Machine floats from the source are modelled as
rationals.
-/

namespace Plot

/-! ## Duration parser (plot.py, parse_time)

The source compiles the anchored regex

  ^((?P<days>[\.\d]+?)d)?((?P<hours>[\.\d]+?)h)?((?P<minutes>[\.\d]+?)m)?((?P<seconds>[\.\d]+?)s)?$

and matches it against the whole input.  Each group captures a nonempty run of
characters from the class [.0-9] followed by its unit letter.  Because the
unit letters are not in the character class, a group can match at a given
position in exactly one way (the capture is the entire numeric run in front of
the unit letter), and skipping a matchable group can never enable a later
match (a later group would have to start with a different unit letter).  The
regex is therefore equivalent to the deterministic parser below, which tries
the four units in order and for each one commits iff a nonempty numeric run
followed by that unit letter is present.
-/

/-- Character class [.0-9] used by every capture group of the duration regex. -/
def isNumChar (c : Char) : Bool := c == '.' || c.isDigit

/-- Split off the maximal leading run of characters from the class [.0-9]. -/
def takeRun : List Char → List Char × List Char
  | [] => ([], [])
  | c :: cs =>
    if isNumChar c then
      let p := takeRun cs
      (c :: p.1, p.2)
    else ([], c :: cs)

/-- Match one optional regex group ((?P<g>[.0-9]+?)u)?: commit iff a nonempty
numeric run followed by the unit letter u is at the front, else leave the
input untouched and record the group as absent. -/
def matchSeg (unit : Char) (cs : List Char) : Option (List Char) × List Char :=
  let p := takeRun cs
  match p.2 with
  | u :: rest => if u == unit && !p.1.isEmpty then (some p.1, rest) else (none, cs)
  | [] => (none, cs)

/-- Match a sequence of optional unit groups in the given fixed order. -/
def matchSegs : List Char → List Char → List (Option (List Char)) × List Char
  | [], cs => ([], cs)
  | u :: us, cs =>
    let p := matchSeg u cs
    let q := matchSegs us p.2
    (p.1 :: q.1, q.2)

/-- The full anchored duration regex of parse_time.  Returns the four named
groups (days, hours, minutes, seconds) when the whole string matches, and
none when the match fails (the $ anchor rejects leftover input). -/
def timeRegexMatch (cs : List Char) : Option (List (Option (List Char))) :=
  let p := matchSegs ['d', 'h', 'm', 's'] cs
  if p.2.isEmpty then some p.1 else none

/-- Numeric value of a list of decimal digit characters. -/
def digitsVal (ds : List Char) : Nat := ds.foldl (fun a c => 10 * a + (c.toNat - 48)) 0

/-- Python float() restricted to strings over the class [.0-9]: an optional
integer part, an optional dot, an optional fractional part, with at least one
digit overall and at most one dot.  Rejects strings such as "." or "1.2.3"
(float() raises ValueError there), exactly as the source would. -/
def parseDecimal (cs : List Char) : Option ℚ :=
  let ip := cs.takeWhile Char.isDigit
  let rest := cs.dropWhile Char.isDigit
  match rest with
  | [] => if ip.isEmpty then none else some (digitsVal ip : ℚ)
  | c :: frac =>
    if c == '.' && frac.all Char.isDigit && !(ip.isEmpty && frac.isEmpty) then
      some ((digitsVal ip : ℚ) + (digitsVal frac : ℚ) / (10 : ℚ) ^ frac.length)
    else none

/-- Failure modes of parse_time.  assertionFailed is the assert whose message
lists the valid examples; floatValueError is float() applied to a capture that
is not a valid number; timedeltaValueError is pandas Timedelta invoked with no
keyword arguments at all (ValueError: cannot construct a Timedelta without a
value/unit or descriptive keywords). -/
inductive PTError
  | assertionFailed
  | floatValueError
  | timedeltaValueError
deriving DecidableEq, Repr

/-- Durations are modelled as rational numbers of seconds. -/
abbrev Duration := ℚ

/-- Convert the captured groups to floats, in groupdict order, skipping absent
groups, exactly like the dict comprehension in parse_time; the first invalid
capture raises ValueError. -/
def groupVals : List (Option (List Char)) → Except PTError (List (Option ℚ))
  | [] => .ok []
  | none :: gs => (groupVals gs).map (none :: ·)
  | some g :: gs =>
    match parseDecimal g with
    | none => .error .floatValueError
    | some q => (groupVals gs).map (some q :: ·)

/-- Seconds per unit for the kwargs days, hours, minutes, seconds. -/
def unitSeconds : List ℚ := [86400, 3600, 60, 1]

/-- Embedding of parse_time: match the anchored regex (assert on failure),
convert present captures with float(), and build the pandas Timedelta, which
raises ValueError when no keyword argument is present (the all-absent case,
reached for example on the empty string). -/
def parse_time (time_str : String) : Except PTError Duration :=
  match timeRegexMatch time_str.toList with
  | none => .error .assertionFailed
  | some groups =>
    match groupVals groups with
    | .error e => .error e
    | .ok vals =>
      if vals.all (·.isNone) then .error .timedeltaValueError
      else .ok ((unitSeconds.zip vals).foldl (fun acc p => acc + p.1 * p.2.getD 0) 0)

/-! ## Data model for the loader -/

/-- Timestamps are modelled as rational numbers (seconds since an epoch);
only the affine structure matters to the source. -/
abbrev DateTime := ℚ

/-- One CSV row before enrichment: the timestep column plus the remaining
numeric columns accessed by name. -/
structure RawRow where
  timestep : ℚ
  data : String → ℚ

/-- A CSV as read from disk: rows plus the names of the non-timestep columns. -/
structure RawTable where
  rows : List RawRow
  dataCols : List String

/-- One row after the loader adds percentile, timestep_formatted and bound. -/
structure Row where
  timestep : ℚ
  percentile : String
  timestep_formatted : DateTime
  bound : String
  data : String → ℚ

/-- A per-scenario dataframe. -/
structure Table where
  rows : List Row
  dataCols : List String

/-- Outcome of a CSV read: FileNotFoundError is singled out because it is the
only exception the loader catches; every other failure (permissions,
malformed CSV, parse error) is collapsed into otherErr. -/
inductive ReadErr
  | fileNotFound
  | otherErr (msg : String)
deriving DecidableEq, Repr

/-- Failure modes of load_output_data, in the order the source can raise
them: a missing config key (dict.pop), a bad duration string, a bad
first_time_step (datetime.strptime), a bad num_scenarios (int()), a summary
filename without a numeric substring (re.findall(...)[0] IndexError), an
unrecovered CSV read error, and pd.concat applied to an empty list. -/
inductive LoadErr
  | keyErr (k : String)
  | ptErr (e : PTError)
  | strptimeErr
  | intErr
  | percentileErr
  | readErr (e : ReadErr)
  | concatErr
deriving DecidableEq, Repr

/-- External world of the loader: CSV reads by path, and datetime.strptime
(value then format), which the source uses to parse first_time_step. -/
structure Env where
  readCsv : String → Except ReadErr RawTable
  strptime : String → String → Option DateTime

/-- The configuration mapping, with Python dict insertion order. -/
abbrev Config := List (String × String)

/-- Python dict.pop: remove the (unique) binding of a key and return its value
together with the remaining mapping, or none (KeyError) when absent. -/
def dictPop (k : String) : Config → Option (String × Config)
  | [] => none
  | (k2, v) :: rest =>
    if k2 == k then some (v, rest)
    else match dictPop k rest with
      | some (v2, rest2) => some (v2, (k2, v) :: rest2)
      | none => none

/-- List prefix test, written out so that all string matching in the model is
by plain structural recursion. -/
def listIsPre : List Char → List Char → Bool
  | [], _ => true
  | _ :: _, [] => false
  | p :: ps, c :: cs => p == c && listIsPre ps cs

/-- Substring test on character lists (Python in operator on str). -/
def isSubstrOf (pat : List Char) : List Char → Bool
  | [] => pat.isEmpty
  | c :: cs => listIsPre pat (c :: cs) || isSubstrOf pat cs

/-- Python s.startswith(pat). -/
def strStarts (s pat : String) : Bool := listIsPre pat.toList s.toList

/-- Python pat in s. -/
def strContains (s pat : String) : Bool := isSubstrOf pat.toList s.toList

/-- First match of the percentile regex \d*\.?\d+ at the very front of the
input, if any.  Greedy digits, optional dot, then at least one digit; when no
digit follows the dot the regex backtracks and accepts the integer part alone
when that part is nonempty. -/
def matchNumAt (cs : List Char) : Option (List Char) :=
  let ip := cs.takeWhile Char.isDigit
  let rest := cs.dropWhile Char.isDigit
  match rest with
  | '.' :: rest2 =>
    let fp := rest2.takeWhile Char.isDigit
    if !fp.isEmpty then some (ip ++ '.' :: fp)
    else if !ip.isEmpty then some ip else none
  | _ => if !ip.isEmpty then some ip else none

/-- re.findall for \d*\.?\d+ followed by [0]: the leftmost match, or none
(in which case the source raises IndexError). -/
def findFirstNum : List Char → Option (List Char)
  | [] => none
  | c :: cs =>
    match matchNumAt (c :: cs) with
    | some m => some m
    | none => findFirstNum cs

/-- os.path.join for the two shapes the source produces (the second component
is always a bare filename). -/
def os_path_join (a b : String) : String :=
  match a.toList.getLast? with
  | some '/' => a ++ b
  | _ => a ++ "/" ++ b

/-- fill_timestep from the source: reference time plus timestep multiples of
the parsed delta. -/
def fill_timestep (timestep : ℚ) (first_time_step_datetime : DateTime)
    (time_delta : Duration) : DateTime :=
  first_time_step_datetime + timestep * time_delta

/-- The scenario directory output_path + _{i}/ from the source. -/
def scenarioPath (output_path : String) (i : Nat) : String :=
  output_path ++ "_" ++ Nat.repr i ++ "/"

/-- The try/except around pd.read_csv: read the scenario-specific path and on
FileNotFoundError (only) fall back to the base path; the fallback read is not
protected, so any of its failures propagates. -/
def resolve_read (env : Env) (scenario_output_path output_path file_name : String) :
    Except ReadErr RawTable :=
  match env.readCsv (os_path_join scenario_output_path file_name) with
  | .ok t => .ok t
  | .error .fileNotFound => env.readCsv (os_path_join output_path file_name)
  | .error e => .error e

/-- Loop body for one (file_type, file_name) config entry: extract the
percentile from the file name, read the CSV (with fallback), then add the
percentile, timestep_formatted and bound columns.  The bound comes from the
CONFIG KEY file_type, not from the file name. -/
def process_file (env : Env) (first_time_step_datetime : DateTime) (time_delta : Duration)
    (scenario_output_path output_path : String) (entry : String × String) :
    Except LoadErr Table :=
  match findFirstNum entry.2.toList with
  | none => .error .percentileErr
  | some pct =>
    match resolve_read env scenario_output_path output_path entry.2 with
    | .error e => .error (.readErr e)
    | .ok raw =>
      let bound := if strContains entry.1 "upper" then "upper"
        else if strContains entry.1 "lower" then "lower"
        else "middle"
      .ok { rows := raw.rows.map (fun r =>
              { timestep := r.timestep
                percentile := String.mk pct
                timestep_formatted := fill_timestep r.timestep first_time_step_datetime time_delta
                bound := bound
                data := r.data })
            dataCols := raw.dataCols }

/-- Run an effectful step over a list, stopping at the first error, keeping
results in order (the shape of every for loop in the source). -/
def mapExcept (f : α → Except ε β) : List α → Except ε (List β)
  | [] => .ok []
  | a :: as2 =>
    match f a with
    | .error e => .error e
    | .ok b =>
      match mapExcept f as2 with
      | .error e => .error e
      | .ok bs => .ok (b :: bs)

/-- pd.concat: stack the rows in order; columns are the ordered union. -/
def concatTables (ts : List Table) : Table :=
  { rows := (ts.map (·.rows)).flatten
    dataCols := ts.foldl (fun acc t => acc ++ t.dataCols.filter (fun c => !acc.contains c)) [] }

/-- One iteration of the outer scenario loop: process every summary file for
this scenario index, then pd.concat them (which raises ValueError on an empty
list of objects). -/
def load_scenario (env : Env) (first_time_step_datetime : DateTime) (time_delta : Duration)
    (output_path : String) (summary_files : List (String × String)) (scenario_number : Nat) :
    Except LoadErr Table :=
  match mapExcept
      (process_file env first_time_step_datetime time_delta
        (scenarioPath output_path scenario_number) output_path)
      summary_files with
  | .error e => .error e
  | .ok [] => .error .concatErr
  | .ok (t :: ts) => .ok (concatTables (t :: ts))

/-- Python int() on the num_scenarios value (nonnegative decimal strings; the
source never passes anything else). -/
def pyInt (s : String) : Option Nat :=
  if !s.toList.isEmpty && s.toList.all Char.isDigit then some (digitsVal s.toList) else none

/-- Embedding of load_output_data: pop the five scalar keys off the config (a
genuine mutation of the mapping, returned explicitly here), parse the delta
and the first timestep, gather the summary_* entries in insertion order, and
build one concatenated table per scenario index.  Returns the tables, the
echoed time_step_format, and the mutated config. -/
def load_output_data (env : Env) (config : Config) :
    Except LoadErr ((List Table × String) × Config) :=
  match dictPop "output_path" config with
  | none => .error (.keyErr "output_path")
  | some (output_path, c1) =>
    match dictPop "num_scenarios" c1 with
    | none => .error (.keyErr "num_scenarios")
    | some (num_scenarios, c2) =>
      match dictPop "time_step_format" c2 with
      | none => .error (.keyErr "time_step_format")
      | some (time_step_format, c3) =>
        match dictPop "time_delta" c3 with
        | none => .error (.keyErr "time_delta")
        | some (time_delta_str, c4) =>
          match parse_time time_delta_str with
          | .error e => .error (.ptErr e)
          | .ok time_delta =>
            match dictPop "first_time_step" c4 with
            | none => .error (.keyErr "first_time_step")
            | some (first_time_step, c5) =>
              match env.strptime first_time_step time_step_format with
              | none => .error .strptimeErr
              | some first_time_step_datetime =>
                match pyInt num_scenarios with
                | none => .error .intErr
                | some n =>
                  let summary_files := c5.filter (fun kv => strStarts kv.1 "summary_")
                  match mapExcept
                      (load_scenario env first_time_step_datetime time_delta
                        output_path summary_files)
                      (List.range n) with
                  | .error e => .error e
                  | .ok tables => .ok ((tables, time_step_format), c5)

/-! ## Figure builder (plot.py, make_figure)

Plotly objects are embedded structurally: a trace records exactly the keyword
arguments the source passes to go.Scatter, and a figure is its trace list
plus the (optional) layout, which go.Figure() leaves unset and update_layout
overwrites on every percentile iteration.

The branch condition in the source is df_filtered[.bound].all() == value.
On an object-dtype pandas column, .all() and-reduces the entries with Python
and semantics (x and y is y when x is truthy, else x), so on a nonempty
uniform column of nonempty strings it returns that string, on an empty
selection it returns the boolean True, and a boolean never compares equal to
a string.  pyAnd/seriesAll model exactly this. -/

/-- A Python value that is either a bool or a str, the two shapes the
aggregate .all() can produce on the bound column. -/
inductive PyVal
  | bool (b : Bool)
  | str (s : String)
deriving DecidableEq, Repr

/-- Python truthiness for the two shapes. -/
def pyTruthy : PyVal → Bool
  | .bool b => b
  | .str s => !s.isEmpty

/-- Python and: the right operand when the left is truthy, else the left. -/
def pyAnd (a b : PyVal) : PyVal := if pyTruthy a then b else a

/-- pandas Series.all() on an object-dtype string column: True on an empty
column, else the left-associated and-reduction of the entries. -/
def seriesAll (xs : List String) : PyVal :=
  match xs with
  | [] => .bool true
  | x :: rest => rest.foldl (fun acc y => pyAnd acc (.str y)) (.str x)

/-- pandas Series.unique: the distinct values in order of first appearance. -/
def uniqueFirst (xs : List String) : List String :=
  xs.foldl (fun acc x => if acc.contains x then acc else acc ++ [x]) []

/-- Python sorted() on strings: the lexicographic (code-point) order.  Any
comparison sort agrees with insertion sort on a duplicate-free string list,
so insertion sort is used as the model. -/
def pySorted (xs : List String) : List String :=
  xs.insertionSort (· ≤ ·)

/-- The percentile iteration list of make_figure:
sorted(df.percentile.unique()). -/
def percentilesOf (df : Table) : List String :=
  pySorted (uniqueFirst (df.rows.map (·.percentile)))

/-- One go.Scatter call: the keyword arguments the source passes.  The source
labels the trace with the percentile rendered through str(float(...)); the
raw percentile string is carried here. -/
structure Trace where
  x : List DateTime
  y : List ℚ
  fill : String
  fillcolor : Option String
  mode : Option String
  line_color : String
  line_width : Option ℚ
  name_pct : String

/-- The layout fields set by the two update_layout calls in the source. -/
structure Layout where
  title : String
  xaxis_tickformat : String
  xaxis_tickangle : Int
  yaxis_title : String
  font_size : Nat
  font_color : String
  hovermode : String
  showlegend : Bool
  plot_bgcolor : String
  xaxis_linecolor : String
  yaxis_linecolor : String
  rangeslider_visible : Bool
  xaxis_type : String

/-- The layout value both update_layout calls jointly produce. -/
def mkLayout (title fmt : String) : Layout :=
  { title := title
    xaxis_tickformat := fmt
    xaxis_tickangle := -45
    yaxis_title := "Patient Count"
    font_size := 12
    font_color := "#464646"
    hovermode := "x unified"
    showlegend := false
    plot_bgcolor := "rgba(0,0,0,0)"
    xaxis_linecolor := "#464646"
    yaxis_linecolor := "#464646"
    rangeslider_visible := true
    xaxis_type := "date" }

/-- A go.Figure: traces in the order added, layout unset until the first
update_layout call. -/
structure Fig where
  traces : List Trace
  layout : Option Layout

/-- The three-way branch of the percentile loop: invisible zero-width line for
a lower aggregate, zero-width line filled to the previous trace for an upper
aggregate, and otherwise a default-width line filled to the previous trace. -/
def trace_for (df_filtered : List Row) (col p : String) : Trace :=
  let aggr := seriesAll (df_filtered.map (·.bound))
  if aggr = .str "lower" then
    { x := df_filtered.map (·.timestep_formatted)
      y := df_filtered.map (fun r => r.data col)
      fill := "none"
      fillcolor := none
      mode := some "lines"
      line_color := "indigo"
      line_width := some 0
      name_pct := p }
  else if aggr = .str "upper" then
    { x := df_filtered.map (·.timestep_formatted)
      y := df_filtered.map (fun r => r.data col)
      fill := "tonexty"
      fillcolor := some "rgba(75, 0, 130,0.2)"
      mode := some "lines"
      line_color := "indigo"
      line_width := some 0
      name_pct := p }
  else
    { x := df_filtered.map (·.timestep_formatted)
      y := df_filtered.map (fun r => r.data col)
      fill := "tonexty"
      fillcolor := some "rgba(75, 0, 130,0.2)"
      mode := none
      line_color := "indigo"
      line_width := none
      name_pct := p }

/-- Python labels[y], defined for keys of the mapping (a missing key would be
a KeyError in the source; the loop only ever looks up its own keys). -/
def labelLookup (labels : List (String × String)) (y : String) : String :=
  match labels.find? (fun kv => kv.1 == y) with
  | some kv => kv.2
  | none => ""

/-- Python dict assignment d[k] = v: overwrite in place when the key exists,
else append. -/
def dictInsert (k : String) (v : α) (d : List (String × α)) : List (String × α) :=
  if d.any (fun kv => kv.1 == k) then
    d.map (fun kv => if kv.1 == k then (k, v) else kv)
  else d ++ [(k, v)]

/-- The inner loop of make_figure for one label key y: start from go.Figure(),
and for each percentile in sorted order filter the rows, add the classified
trace and overwrite the layout. -/
def build_figure (df : Table) (labels : List (String × String)) (time_step_format : String)
    (y : String) : Fig :=
  (percentilesOf df).foldl
    (fun fig p =>
      let df_filtered := df.rows.filter (fun r => r.percentile == p)
      { traces := fig.traces ++ [trace_for df_filtered y p]
        layout := some (mkLayout (labelLookup labels y) time_step_format) })
    { traces := [], layout := none }

/-- The column list of an enriched dataframe: the CSV columns followed by the
three appended ones, in assignment order. -/
def columnsOf (df : Table) : List String :=
  ("timestep" :: df.dataCols) ++ ["percentile", "timestep_formatted", "bound"]

/-- Python list.remove: drop the first occurrence. -/
def pyListRemove (k : String) (l : List String) : List String := l.erase k

set_option linter.unusedVariables false in
/-- Embedding of make_figure: one title-to-figure mapping per scenario table;
figures are produced in labels.json order and keyed by the display title.
The y_cols list is computed and then never used, exactly as in the source. -/
def make_figure (dfs : List Table) (labels : List (String × String))
    (time_step_format : String) : List (List (String × Fig)) :=
  dfs.map (fun df =>
    let y_cols := pyListRemove "bound" (pyListRemove "timestep_formatted"
      (pyListRemove "percentile" (pyListRemove "timestep" (columnsOf df))))
    (labels.map (·.1)).foldl
      (fun figures y =>
        dictInsert (labelLookup labels y) (build_figure df labels time_step_format y) figures)
      [])

/-! ## Dashboard renderer (plot.py, figures_to_html)

The destination file is modelled as an explicit handle recording the path,
the chunks written, and whether close() was ever called.  The source opens
the file with open(filename, "w"), writes the shell and the figures, and
returns without any close() call and without a with-block, so the handle is
still open on every exit path; the embedding makes that visible. -/

/-- An open file handle of the renderer. -/
structure Dashboard where
  path : String
  chunks : List String
  closed : Bool
deriving Repr

/-- One handle.write(s) call. -/
def fwrite (d : Dashboard) (s : String) : Dashboard :=
  { d with chunks := d.chunks ++ [s] }

/-- The page shell header written first (source literal, with a final
newline). -/
def dashboardHeader : String :=
  "<html><head><link rel=\x27stylesheet\x27 type=\x27text/css\x27 href=\x27assets/style.css\x27></head><body><div class=\x27container\x27><h2>COVID-19 Forecast for TMC (Experimental Draft; Do Not Take Seriously)</h2>" ++ "\n"

/-- The closing shell written last. -/
def dashboardFooter : String := "</div></body></html>" ++ "\n"

/-- v.to_html().split("<body>")[1].split("</body>")[0]: none models the
IndexError raised when the rendered html has no body tag. -/
def figInnerHtml (html : String) : Option String :=
  match (html.splitOn "<body>").get? 1 with
  | none => none
  | some t => some (t.splitOn "</body>").headI

/-- The figure-writing loop; on an extraction error the exception escapes with
the handle in its current state (carried on the error side). -/
def writeFigs (toHtml : F → String) : List (String × F) → Dashboard → Except Dashboard Dashboard
  | [], d => .ok d
  | (_, v) :: rest, d =>
    match figInnerHtml (toHtml v) with
    | none => .error d
    | some inner => writeFigs toHtml rest (fwrite d inner)

/-- Embedding of figures_to_html: open the destination, write the header, the
figures in mapping order, then the footer.  No exit path closes the handle. -/
def figures_to_html (toHtml : F → String) (figs : List (String × F))
    (filename : String) : Except Dashboard Dashboard :=
  let dashboard : Dashboard := { path := filename, chunks := [], closed := false }
  let dashboard := fwrite dashboard dashboardHeader
  match writeFigs toHtml figs dashboard with
  | .error d => .error d
  | .ok d => .ok (fwrite d dashboardFooter)

/-- The handle as it stands when the renderer terminates, normally or by an
escaping exception. -/
def resultDashboard : Except Dashboard Dashboard → Dashboard
  | .ok d => d
  | .error d => d

/-- Whether the renderer terminated without an exception. -/
def isOkE : Except Dashboard Dashboard → Bool
  | .ok _ => true
  | .error _ => false

/-! ## Auxiliary definitions used by the statements and concrete runs -/

/-- Value of one optional regex capture under float(); an absent group
contributes nothing to the Timedelta, modelled as 0. -/
def segValue : Option (List Char) → Option ℚ
  | none => some 0
  | some g => parseDecimal g

/-- Rebuild a duration string from optional numeric captures, one unit at a
time, in the fixed order of the units. -/
def renderSegs : List Char → List (Option (List Char)) → List Char
  | u :: us, g :: gs =>
    (match g with
     | none => []
     | some n => n ++ [u]) ++ renderSegs us gs
  | _, _ => []

/-- A duration string composed of optional days, hours, minutes and seconds
segments in that fixed order. -/
def durStr (d h m s : Option (List Char)) : String :=
  String.mk (renderSegs ['d', 'h', 'm', 's'] [d, h, m, s])

/-- A one-row CSV with a single data column, used by the concrete runs. -/
def rawT : RawTable := { rows := [{ timestep := 0, data := fun _ => 0 }], dataCols := ["cases"] }

/-- Environment in which every path holds rawT and strptime always succeeds. -/
def envOk : Env := { readCsv := fun _ => .ok rawT, strptime := fun _ _ => some 0 }

/-- Environment in which the scenario-specific copy of summary_0.5.csv is
missing but everything else reads fine. -/
def envFnf : Env :=
  { readCsv := fun p => if p == "out_0/summary_0.5.csv" then .error .fileNotFound else .ok rawT
    strptime := fun _ _ => some 0 }

/-- A full configuration mapping as loaded from config.json. -/
def cfgMain : Config :=
  [("output_path", "out"), ("num_scenarios", "2"), ("time_step_format", "%Y-%m-%d"),
   ("time_delta", "1h"), ("first_time_step", "2020-03-01"),
   ("summary_0.5", "summary_0.5.csv"), ("output_html_file", "dashboard.html")]

/-- A configuration whose summary entry has a filename containing upper under
a config key that does not contain it. -/
def cfgKeyVsName : Config :=
  [("output_path", "out"), ("num_scenarios", "1"), ("time_step_format", "%Y-%m-%d"),
   ("time_delta", "1h"), ("first_time_step", "2020-03-01"),
   ("summary_a", "summary_0.1_upper.csv")]

/-- Bound column of the first row of the first loaded table, when defined. -/
def firstBound : Except LoadErr ((List Table × String) × Config) → Option String
  | .ok ((t :: _, _), _) =>
    match t.rows with
    | r :: _ => some r.bound
    | [] => none
  | _ => none

/-- Tables of a successful load, with an inert default on error. -/
def loadTables : Except LoadErr ((List Table × String) × Config) → List Table
  | .ok ((ts, _), _) => ts
  | .error _ => []

/-- Mutated configuration of a successful load. -/
def loadCfg : Except LoadErr ((List Table × String) × Config) → Config
  | .ok ((_, _), c) => c
  | .error _ => []

/-- Echoed time_step_format of a successful load. -/
def loadFmt : Except LoadErr ((List Table × String) × Config) → String
  | .ok ((_, f), _) => f
  | .error _ => ""

/-- A row with the given percentile and bound, zero elsewhere. -/
def mkRow (p b : String) : Row :=
  { timestep := 0, percentile := p, timestep_formatted := 0, bound := b, data := fun _ => 0 }

/-- Scenario table whose percentile strings sort differently as strings than
as numbers. -/
def exampleDf : Table :=
  { rows := [mkRow "9" "middle", mkRow "10" "middle"], dataCols := ["cases"] }

/-- Label mapping fixture. -/
def labelsMain : List (String × String) := [("cases", "Case Count"), ("deaths", "Death Count")]

/-- Table of a successful per-file load, with an inert default on error. -/
def okTableOr : Except LoadErr Table → Table
  | .ok t => t
  | .error _ => { rows := [], dataCols := [] }

/-- Duration of a successful parse, with an inert default on error. -/
def okDurOr : Except PTError Duration → Duration
  | .ok q => q
  | .error _ => 0

/-! ## Lemmas about the duration regex -/

theorem parseDecimal_ne_nil (cs : List Char) (q : ℚ) (h : parseDecimal cs = some q) :
    cs ≠ [] := by
  intro hnil
  subst hnil
  simp [parseDecimal] at h

theorem parseDecimal_numChars (cs : List Char) (q : ℚ) (h : parseDecimal cs = some q) :
    ∀ c ∈ cs, isNumChar c = true := by
  intro c hc
  have hsplit : cs.takeWhile Char.isDigit ++ cs.dropWhile Char.isDigit = cs :=
    List.takeWhile_append_dropWhile Char.isDigit cs
  rw [← hsplit] at hc
  rcases List.mem_append.mp hc with hip | hrest
  · have := List.mem_takeWhile_imp hip
    simp [isNumChar, this]
  · unfold parseDecimal at h
    cases hr : cs.dropWhile Char.isDigit with
    | nil => rw [hr] at hrest; cases hrest
    | cons c0 frac =>
      rw [hr] at h hrest
      simp only [] at h
      split at h
      · rename_i hcond
        have hdot : (c0 == '.') = true := by
          have := (Bool.and_eq_true _ _).mp hcond
          have := (Bool.and_eq_true _ _).mp this.1
          exact this.1
        have hfrac : frac.all Char.isDigit = true := by
          have := (Bool.and_eq_true _ _).mp hcond
          have := (Bool.and_eq_true _ _).mp this.1
          exact this.2
        rcases List.mem_cons.mp hrest with hc0 | hmem
        · subst hc0
          simp [isNumChar, hdot]
        · have := List.all_eq_true.mp hfrac c hmem
          simp [isNumChar, this]
      · cases h

theorem takeRun_append (xs rest : List Char) (hx : ∀ c ∈ xs, isNumChar c = true)
    (hr : ∀ c cs2, rest = c :: cs2 → isNumChar c = false) :
    takeRun (xs ++ rest) = (xs, rest) := by
  induction xs with
  | nil =>
    cases rest with
    | nil => rfl
    | cons c cs2 => simp [takeRun, hr c cs2 rfl]
  | cons x xs ih =>
    have hx0 : isNumChar x = true := hx x (by simp)
    have ih2 := ih (fun c hc => hx c (by simp [hc]))
    simp [takeRun, hx0, ih2]

theorem matchSeg_hit (u : Char) (n rest : List Char) (hn : n ≠ [])
    (hnum : ∀ c ∈ n, isNumChar c = true) (hu : isNumChar u = false) :
    matchSeg u (n ++ u :: rest) = (some n, rest) := by
  unfold matchSeg
  rw [takeRun_append n (u :: rest) hnum (by intro c cs2 hc; cases hc; exact hu)]
  simp [hn]

theorem matchSeg_skip (u : Char) (n : List Char) (u2 : Char) (rest : List Char)
    (hnum : ∀ c ∈ n, isNumChar c = true) (hu2 : isNumChar u2 = false) (hne : u2 ≠ u) :
    matchSeg u (n ++ u2 :: rest) = (none, n ++ u2 :: rest) := by
  unfold matchSeg
  rw [takeRun_append n (u2 :: rest) hnum (by intro c cs2 hc; cases hc; exact hu2)]
  simp [hne]

theorem matchSeg_nil (u : Char) : matchSeg u [] = (none, []) := rfl

/-- Shape of a rendered suffix: it is empty, or starts with a (possibly
empty) numeric run followed by one of its unit letters. -/
theorem renderSegs_shape (us : List Char) (gs : List (Option (List Char)))
    (hv : ∀ g ∈ gs, ∀ n, g = some n → (∀ c ∈ n, isNumChar c = true)) :
    renderSegs us gs = [] ∨
      ∃ n u rest, u ∈ us ∧ (∀ c ∈ n, isNumChar c = true) ∧
        renderSegs us gs = n ++ u :: rest := by
  induction us generalizing gs with
  | nil => left; rfl
  | cons u us ih =>
    cases gs with
    | nil => left; rfl
    | cons g gs2 =>
      cases g with
      | none =>
        have hv2 : ∀ g ∈ gs2, ∀ n, g = some n → (∀ c ∈ n, isNumChar c = true) :=
          fun g hg => hv g (by simp [hg])
        rcases ih gs2 hv2 with hnil | ⟨n2, u2, rest2, hu2, hnum2, heq⟩
        · left; simpa [renderSegs] using hnil
        · right
          exact ⟨n2, u2, rest2, by simp [hu2], hnum2, by simpa [renderSegs] using heq⟩
      | some n =>
        right
        refine ⟨n, u, renderSegs us gs2, by simp, hv (some n) (by simp) n rfl, ?_⟩
        simp [renderSegs]

/-- The deterministic parser recovers exactly the segments a well-formed
duration string was rendered from, consuming the whole input. -/
theorem matchSegs_renderSegs (us : List Char) (gs : List (Option (List Char)))
    (hlen : gs.length = us.length)
    (hus : ∀ u ∈ us, isNumChar u = false)
    (hnd : us.Nodup)
    (hv : ∀ g ∈ gs, ∀ n, g = some n → n ≠ [] ∧ ∀ c ∈ n, isNumChar c = true) :
    matchSegs us (renderSegs us gs) = (gs, []) := by
  induction us generalizing gs with
  | nil =>
    cases gs with
    | nil => rfl
    | cons g gs2 => simp at hlen
  | cons u us ih =>
    cases gs with
    | nil => simp at hlen
    | cons g gs2 =>
      have hlen2 : gs2.length = us.length := by simpa using hlen
      have hus2 : ∀ u2 ∈ us, isNumChar u2 = false := fun u2 hu2 => hus u2 (by simp [hu2])
      have hnd2 : us.Nodup := (List.nodup_cons.mp hnd).2
      have hunotin : u ∉ us := (List.nodup_cons.mp hnd).1
      have hv2 : ∀ g2 ∈ gs2, ∀ n, g2 = some n → n ≠ [] ∧ ∀ c ∈ n, isNumChar c = true :=
        fun g2 hg => hv g2 (by simp [hg])
      have ih2 := ih gs2 hlen2 hus2 hnd2 hv2
      cases g with
      | some n =>
        obtain ⟨hn, hnum⟩ := hv (some n) (by simp) n rfl
        have hrender : renderSegs (u :: us) (some n :: gs2) = n ++ u :: renderSegs us gs2 := by
          simp [renderSegs]
        rw [hrender]
        show (let p := matchSeg u (n ++ u :: renderSegs us gs2)
              let q := matchSegs us p.2
              (p.1 :: q.1, q.2)) = _
        rw [matchSeg_hit u n _ hn hnum (hus u (by simp))]
        simp [ih2]
      | none =>
        have hrender : renderSegs (u :: us) (none :: gs2) = renderSegs us gs2 := by
          simp [renderSegs]
        rw [hrender]
        have hskip : matchSeg u (renderSegs us gs2) = (none, renderSegs us gs2) := by
          have hv3 : ∀ g2 ∈ gs2, ∀ n, g2 = some n → (∀ c ∈ n, isNumChar c = true) :=
            fun g2 hg n hn => (hv2 g2 hg n hn).2
          rcases renderSegs_shape us gs2 hv3 with hnil | ⟨n2, u2, rest2, hu2, hnum2, heq⟩
          · rw [hnil]; rfl
          · rw [heq]
            exact matchSeg_skip u n2 u2 rest2 hnum2 (hus2 u2 hu2)
              (fun hc => hunotin (hc ▸ hu2))
        show (let p := matchSeg u (renderSegs us gs2)
              let q := matchSegs us p.2
              (p.1 :: q.1, q.2)) = _
        rw [hskip]
        simp [ih2]

theorem groupVals_cons (g : Option (List Char)) (q : ℚ) (hg : segValue g = some q)
    (gs : List (Option (List Char))) :
    groupVals (g :: gs) = (groupVals gs).map ((g.map fun _ => q) :: ·) := by
  cases g with
  | none => rfl
  | some n =>
    have : parseDecimal n = some q := hg
    simp [groupVals, this]

theorem segValue_getD (g : Option (List Char)) (q : ℚ) (hg : segValue g = some q) :
    (g.map fun _ => q).getD 0 = q := by
  cases g with
  | none =>
    have : (0 : ℚ) = q := by simpa [segValue] using hg
    simpa using this
  | some n => rfl

/-! ## Claim theorems for the duration parser -/

/-- C1, counterexample: the claim says parse_time rejects the empty string
with the fatal assertion, but the anchored regex matches the empty string
(every group is optional), so the assertion passes; the failure the empty
string actually hits is the later Timedelta ValueError. -/
theorem C1_empty_not_rejected_by_assertion :
    parse_time "" ≠ Except.error PTError.assertionFailed := by
  intro h
  rw [show parse_time "" = Except.error PTError.timedeltaValueError from rfl] at h
  simp at h

/-- C1 (amended): parse_time on the empty string passes the regex match and
the assertion, produces no segments, and fails constructing the Timedelta
with a ValueError; a string matching none of the segment patterns, such as
abc, is rejected by the assertion whose message lists the valid examples. -/
theorem C1_empty_and_garbage_failures :
    parse_time "" = Except.error PTError.timedeltaValueError ∧
      parse_time "abc" = Except.error PTError.assertionFailed :=
  ⟨rfl, rfl⟩

/-- C6: for every input string composed of optional days, hours, minutes and
seconds segments in that fixed order, each operand a valid (possibly
fractional) decimal numeral and at least one segment present, parse_time
returns the duration 86400 days + 3600 hours + 60 minutes + seconds, in
seconds. -/
theorem C6_parse_time_sums_components
    (d h m s : Option (List Char)) (qd qh qm qs : ℚ)
    (hd : segValue d = some qd) (hh : segValue h = some qh)
    (hm2 : segValue m = some qm) (hs : segValue s = some qs)
    (hone : ¬(d = none ∧ h = none ∧ m = none ∧ s = none)) :
    parse_time (durStr d h m s) = .ok (86400 * qd + 3600 * qh + 60 * qm + qs) := by
  have hv : ∀ g ∈ [d, h, m, s], ∀ n, g = some n →
      n ≠ [] ∧ ∀ c ∈ n, isNumChar c = true := by
    intro g hg n hn
    subst hn
    have hq : ∃ q, parseDecimal n = some q := by
      rcases List.mem_cons.mp hg with h1 | hg2
      · exact ⟨qd, by rw [← h1] at hd; exact hd⟩
      rcases List.mem_cons.mp hg2 with h1 | hg3
      · exact ⟨qh, by rw [← h1] at hh; exact hh⟩
      rcases List.mem_cons.mp hg3 with h1 | hg4
      · exact ⟨qm, by rw [← h1] at hm2; exact hm2⟩
      rcases List.mem_cons.mp hg4 with h1 | hg5
      · exact ⟨qs, by rw [← h1] at hs; exact hs⟩
      · exact absurd hg5 (List.not_mem_nil _)
    obtain ⟨q, hq⟩ := hq
    exact ⟨parseDecimal_ne_nil n q hq, parseDecimal_numChars n q hq⟩
  have hmatch : timeRegexMatch (durStr d h m s).toList = some [d, h, m, s] := by
    have hcs : (durStr d h m s).toList = renderSegs ['d', 'h', 'm', 's'] [d, h, m, s] := rfl
    rw [hcs]
    simp only [timeRegexMatch]
    rw [matchSegs_renderSegs ['d', 'h', 'm', 's'] [d, h, m, s] rfl (by decide) (by decide) hv]
    rfl
  have hgv : groupVals [d, h, m, s] =
      .ok [d.map fun _ => qd, h.map fun _ => qh, m.map fun _ => qm, s.map fun _ => qs] := by
    rw [groupVals_cons d qd hd, groupVals_cons h qh hh, groupVals_cons m qm hm2,
      groupVals_cons s qs hs]
    rfl
  have hfalse : (([d.map fun _ => qd, h.map fun _ => qh, m.map fun _ => qm,
      s.map fun _ => qs]).all (·.isNone)) = false := by
    rcases d with _ | nd
    · rcases h with _ | nh
      · rcases m with _ | nm
        · rcases s with _ | ns2
          · exact absurd ⟨rfl, rfl, rfl, rfl⟩ hone
          · simp
        · simp
      · simp
    · simp
  unfold parse_time
  rw [hmatch]
  simp only [hgv, hfalse, Bool.false_eq_true, if_false]
  simp only [unitSeconds, List.zip, List.zipWith, List.foldl]
  rw [segValue_getD d qd hd, segValue_getD h qh hh, segValue_getD m qm hm2,
    segValue_getD s qs hs]
  have harith : (0 : ℚ) + 86400 * qd + 3600 * qh + 60 * qm + 1 * qs
      = 86400 * qd + 3600 * qh + 60 * qm + qs := by ring
  rw [harith]

/-- C6 witness: parse_time on 2d8h5m20s (rendered from its four segments)
yields 2 days 8 hours 5 minutes 20 seconds. -/
theorem C6_parse_time_sums_components_witness :
    parse_time (durStr (some ['2']) (some ['8']) (some ['5']) (some ['2', '0']))
      = .ok (86400 * 2 + 3600 * 8 + 60 * 5 + 20) :=
  C6_parse_time_sums_components (some ['2']) (some ['8']) (some ['5']) (some ['2', '0'])
    2 8 5 20 (by decide) (by decide) (by decide) (by decide) (by decide)

/-! ## Lemmas about the loader -/

theorem mapExcept_ok_length (f : α → Except ε β) (l : List α) (bs : List β)
    (h : mapExcept f l = .ok bs) : bs.length = l.length := by
  induction l generalizing bs with
  | nil =>
    unfold mapExcept at h
    cases h
    rfl
  | cons a as ih =>
    unfold mapExcept at h
    cases hf : f a with
    | error e => rw [hf] at h; cases h
    | ok b =>
      rw [hf] at h
      cases hrec : mapExcept f as with
      | error e => rw [hrec] at h; cases h
      | ok bs2 =>
        rw [hrec] at h
        cases h
        simp [ih bs2 hrec]

theorem mapExcept_ok_get (f : α → Except ε β) (l : List α) (bs : List β)
    (h : mapExcept f l = .ok bs) :
    ∀ i (hi : i < l.length) (hb : i < bs.length),
      f (l.get ⟨i, hi⟩) = .ok (bs.get ⟨i, hb⟩) := by
  induction l generalizing bs with
  | nil => intro i hi hb; simp at hi
  | cons a as ih =>
    unfold mapExcept at h
    cases hf : f a with
    | error e => rw [hf] at h; cases h
    | ok b =>
      rw [hf] at h
      cases hrec : mapExcept f as with
      | error e => rw [hrec] at h; cases h
      | ok bs2 =>
        rw [hrec] at h
        cases h
        intro i hi hb
        cases i with
        | zero => simpa using hf
        | succ j => exact ih bs2 hrec j (by simpa using hi) (by simpa using hb)

theorem mapExcept_ok_forall (f : α → Except ε β) (l : List α) (bs : List β)
    (h : mapExcept f l = .ok bs) : ∀ a ∈ l, ∃ b, f a = .ok b := by
  induction l generalizing bs with
  | nil => intro a ha; cases ha
  | cons a0 as ih =>
    unfold mapExcept at h
    cases hf : f a0 with
    | error e => rw [hf] at h; cases h
    | ok b =>
      rw [hf] at h
      cases hrec : mapExcept f as with
      | error e => rw [hrec] at h; cases h
      | ok bs2 =>
        intro a ha
        rcases List.mem_cons.mp ha with rfl | hmem
        · exact ⟨b, hf⟩
        · exact ih bs2 hrec a hmem

theorem dictPop_some_filter (k : String) (d : Config) (v : String) (rest : Config)
    (hnd : (d.map (fun kv => kv.1)).Nodup) (h : dictPop k d = some (v, rest)) :
    rest = d.filter (fun kv => !(kv.1 == k)) := by
  induction d generalizing rest with
  | nil => cases h
  | cons kv d2 ih =>
    obtain ⟨k2, v2⟩ := kv
    rw [List.map_cons] at hnd
    have hnd0 := List.nodup_cons.mp hnd
    unfold dictPop at h
    by_cases hk : (k2 == k) = true
    · rw [if_pos hk] at h
      cases h
      have hk2 : k2 = k := by simpa using hk
      subst hk2
      simp only [List.filter_cons]
      rw [show (!(k2 == k2)) = false by simp]
      simp only [Bool.false_eq_true, if_false]
      refine (List.filter_eq_self.mpr ?_).symm
      intro kv2 hkv
      have hne : kv2.1 ≠ k2 := by
        intro hc
        exact hnd0.1 (by exact List.mem_map.mpr ⟨kv2, hkv, hc⟩)
      simpa using hne
    · rw [if_neg hk] at h
      cases hrec : dictPop k d2 with
      | none => rw [hrec] at h; cases h
      | some p =>
        obtain ⟨v3, r3⟩ := p
        rw [hrec] at h
        cases h
        have hr3 := ih r3 hnd0.2 hrec
        simp only [List.filter_cons]
        rw [show (!(k2 == k)) = true by simpa using hk]
        simp [hr3]

theorem filter_keys_nodup (d : Config) (p : String × String → Bool)
    (hnd : (d.map (fun kv => kv.1)).Nodup) : ((d.filter p).map (fun kv => kv.1)).Nodup :=
  hnd.sublist (List.Sublist.map _ (List.filter_sublist d))

/-- Successful loads factor through the whole pop / parse / read pipeline;
this inversion names every intermediate value. -/
theorem load_output_data_ok_inv (env : Env) (config : Config)
    (tables : List Table) (fmt2 : String) (config2 : Config)
    (hload : load_output_data env config = .ok ((tables, fmt2), config2)) :
    ∃ op c1 ns c2 fmt c3 td c4 delta fts c5 fdt n,
      dictPop "output_path" config = some (op, c1) ∧
      dictPop "num_scenarios" c1 = some (ns, c2) ∧
      dictPop "time_step_format" c2 = some (fmt, c3) ∧
      dictPop "time_delta" c3 = some (td, c4) ∧
      parse_time td = .ok delta ∧
      dictPop "first_time_step" c4 = some (fts, c5) ∧
      env.strptime fts fmt = some fdt ∧
      pyInt ns = some n ∧
      mapExcept
        (load_scenario env fdt delta op (c5.filter (fun kv => strStarts kv.1 "summary_")))
        (List.range n) = .ok tables ∧
      fmt2 = fmt ∧ config2 = c5 := by
  unfold load_output_data at hload
  split at hload
  · cases hload
  rename_i op c1 h1
  split at hload
  · cases hload
  rename_i ns c2 h2
  split at hload
  · cases hload
  rename_i fmt c3 h3
  split at hload
  · cases hload
  rename_i td c4 h4
  split at hload
  · cases hload
  rename_i delta h5
  split at hload
  · cases hload
  rename_i fts c5 h6
  split at hload
  · cases hload
  rename_i fdt h7
  split at hload
  · cases hload
  rename_i n h8
  dsimp only at hload
  split at hload
  · cases hload
  rename_i ts h9
  simp only [Except.ok.injEq, Prod.mk.injEq] at hload
  obtain ⟨⟨hts, hfmt⟩, hcfg⟩ := hload
  subst hts hfmt hcfg
  exact ⟨op, c1, ns, c2, fmt, c3, td, c4, delta, fts, c5, fdt, n,
    h1, h2, h3, h4, h5, h6, h7, h8, h9, rfl, rfl⟩

theorem load_scenario_ok_inv (env : Env) (fdt : DateTime) (delta : Duration)
    (op : String) (sf : List (String × String)) (i : Nat) (t : Table)
    (h : load_scenario env fdt delta op sf i = .ok t) :
    ∃ fts, fts ≠ [] ∧
      mapExcept (process_file env fdt delta (scenarioPath op i) op) sf = .ok fts ∧
      t = concatTables fts := by
  unfold load_scenario at h
  split at h
  · cases h
  · cases h
  rename_i t0 ts hm
  cases h
  exact ⟨t0 :: ts, by simp, hm, rfl⟩

theorem process_file_ok_inv (env : Env) (fdt : DateTime) (delta : Duration)
    (sp op : String) (entry : String × String) (t : Table)
    (h : process_file env fdt delta sp op entry = .ok t) :
    ∃ pct raw, findFirstNum entry.2.toList = some pct ∧
      resolve_read env sp op entry.2 = .ok raw ∧
      t = { rows := raw.rows.map (fun r =>
              { timestep := r.timestep
                percentile := String.mk pct
                timestep_formatted := fill_timestep r.timestep fdt delta
                bound := if strContains entry.1 "upper" then "upper"
                  else if strContains entry.1 "lower" then "lower"
                  else "middle"
                data := r.data })
            dataCols := raw.dataCols } := by
  unfold process_file at h
  split at h
  · cases h
  rename_i pct hp
  split at h
  · cases h
  rename_i raw hr
  cases h
  exact ⟨pct, raw, hp, hr, rfl⟩

/-! ## Claim theorems for the loader -/

/-- C3, counterexample: the claim derives the bound column from the CSV
filename, but the source classifies it from the CONFIG KEY (file_type).
With key summary_a and filename summary_0.1_upper.csv the filename contains
upper, yet every loaded row gets bound middle. -/
theorem C3_bound_ignores_filename :
    strContains "summary_0.1_upper.csv" "upper" = true ∧
      firstBound (load_output_data envOk cfgKeyVsName) = some "middle" :=
  ⟨rfl, rfl⟩

/-- C3 (amended): the bound column of every loaded table is derived from the
summary entry's config key (file_type), not from the CSV filename: key
contains upper gives upper, else key contains lower gives lower, else
middle. -/
theorem C3_bound_from_config_key (env : Env) (fdt : DateTime) (delta : Duration)
    (sp op : String) (entry : String × String) (t : Table)
    (h : process_file env fdt delta sp op entry = .ok t) :
    t.rows.all (fun r => r.bound ==
      (if strContains entry.1 "upper" then "upper"
       else if strContains entry.1 "lower" then "lower"
       else "middle")) = true := by
  obtain ⟨pct, raw, hp, hr, ht⟩ := process_file_ok_inv env fdt delta sp op entry t h
  subst ht
  simp only [List.all_eq_true, List.mem_map]
  rintro r ⟨r0, hr0, rfl⟩
  simp

/-- C3 witness: a concrete per-file load whose key is summary_a classifies
every row of its table as middle. -/
theorem C3_bound_from_config_key_witness :
    (okTableOr (process_file envOk 0 3600 "out_0/" "out"
      ("summary_a", "summary_0.1_upper.csv"))).rows.all (fun r => r.bound ==
        (if strContains "summary_a" "upper" then "upper"
         else if strContains "summary_a" "lower" then "lower"
         else "middle")) = true :=
  C3_bound_from_config_key envOk 0 3600 "out_0/" "out"
    ("summary_a", "summary_0.1_upper.csv") _ rfl

/-- C4: file-not-found at the scenario-specific path is the only recovered
read error: on it the loader reads the unscoped base path instead (so any
failure of that base read propagates as the overall result); a successful
scenario read is returned as is; any other scenario-read failure propagates
unchanged; and a scenario that loaded successfully had every one of its
summary files resolve to a successful read (an unrecovered error aborts the
scenario). -/
theorem C4_only_file_not_found_recovered (env : Env) :
    (∀ sp op fn, env.readCsv (os_path_join sp fn) = .error .fileNotFound →
      resolve_read env sp op fn = env.readCsv (os_path_join op fn)) ∧
    (∀ sp op fn t, env.readCsv (os_path_join sp fn) = .ok t →
      resolve_read env sp op fn = .ok t) ∧
    (∀ sp op fn msg, env.readCsv (os_path_join sp fn) = .error (.otherErr msg) →
      resolve_read env sp op fn = .error (.otherErr msg)) ∧
    (∀ fdt delta op sf i t, load_scenario env fdt delta op sf i = .ok t →
      ∀ e ∈ sf, ∃ raw, resolve_read env (scenarioPath op i) op e.2 = .ok raw) := by
  refine ⟨?_, ?_, ?_, ?_⟩
  · intro sp op fn h
    unfold resolve_read
    rw [h]
  · intro sp op fn t h
    unfold resolve_read
    rw [h]
  · intro sp op fn msg h
    unfold resolve_read
    rw [h]
  · intro fdt delta op sf i t h e he
    obtain ⟨fts, _, hm, _⟩ := load_scenario_ok_inv env fdt delta op sf i t h
    obtain ⟨tb, htb⟩ := mapExcept_ok_forall _ sf fts hm e he
    obtain ⟨pct, raw, _, hr2, _⟩ :=
      process_file_ok_inv env fdt delta (scenarioPath op i) op e tb htb
    exact ⟨raw, hr2⟩

/-- C4 witness: in an environment where only the scenario-specific copy of
summary_0.5.csv is missing, the loader falls back to the base-path read. -/
theorem C4_only_file_not_found_recovered_witness :
    resolve_read envFnf "out_0/" "out" "summary_0.5.csv"
      = envFnf.readCsv (os_path_join "out" "summary_0.5.csv") :=
  (C4_only_file_not_found_recovered envFnf).1 "out_0/" "out" "summary_0.5.csv" rfl

/-- C5: a successful load with num_scenarios n returns exactly n tables, one
per scenario index, each the pd.concat of that scenario's per-file tables in
the iteration order of the summary entries, preserving each file's row
order. -/
theorem C5_one_table_per_scenario (env : Env) (config : Config)
    (tables : List Table) (fmt2 : String) (config2 : Config)
    (op : String) (c1 : Config) (ns : String) (c2 : Config) (fmt : String) (c3 : Config)
    (td : String) (c4 : Config) (delta : Duration) (fts : String) (c5 : Config)
    (fdt : DateTime) (n : Nat)
    (h1 : dictPop "output_path" config = some (op, c1))
    (h2 : dictPop "num_scenarios" c1 = some (ns, c2))
    (h3 : dictPop "time_step_format" c2 = some (fmt, c3))
    (h4 : dictPop "time_delta" c3 = some (td, c4))
    (h5 : parse_time td = .ok delta)
    (h6 : dictPop "first_time_step" c4 = some (fts, c5))
    (h7 : env.strptime fts fmt = some fdt)
    (h8 : pyInt ns = some n)
    (hload : load_output_data env config = .ok ((tables, fmt2), config2)) :
    tables.length = n ∧
    ∀ i, i < n →
      ∃ fileTables, fileTables ≠ [] ∧
        mapExcept (process_file env fdt delta (scenarioPath op i) op)
          (c5.filter (fun kv => strStarts kv.1 "summary_")) = .ok fileTables ∧
        tables[i]? = some (concatTables fileTables) ∧
        (concatTables fileTables).rows = (fileTables.map (fun tb => tb.rows)).flatten := by
  obtain ⟨op2, c12, ns2, c22, fmt2b, c32, td2, c42, delta2, fts2, c52, fdt2, n2,
    g1, g2, g3, g4, g5, g6, g7, g8, g9, gfmt, gcfg⟩ :=
    load_output_data_ok_inv env config tables fmt2 config2 hload
  rw [h1] at g1
  simp only [Option.some.injEq, Prod.mk.injEq] at g1
  obtain ⟨go, gc⟩ := g1
  subst go gc
  rw [h2] at g2
  simp only [Option.some.injEq, Prod.mk.injEq] at g2
  obtain ⟨go, gc⟩ := g2
  subst go gc
  rw [h3] at g3
  simp only [Option.some.injEq, Prod.mk.injEq] at g3
  obtain ⟨go, gc⟩ := g3
  subst go gc
  rw [h4] at g4
  simp only [Option.some.injEq, Prod.mk.injEq] at g4
  obtain ⟨go, gc⟩ := g4
  subst go gc
  rw [h5] at g5
  simp only [Except.ok.injEq] at g5
  subst g5
  rw [h6] at g6
  simp only [Option.some.injEq, Prod.mk.injEq] at g6
  obtain ⟨go, gc⟩ := g6
  subst go gc
  rw [h7] at g7
  simp only [Option.some.injEq] at g7
  subst g7
  rw [h8] at g8
  simp only [Option.some.injEq] at g8
  subst g8
  have hlen : tables.length = n := by
    have := mapExcept_ok_length _ _ _ g9
    simpa using this
  refine ⟨hlen, ?_⟩
  intro i hi
  have hb : i < tables.length := by rw [hlen]; exact hi
  have hget := mapExcept_ok_get _ (List.range n) tables g9 i (by simpa using hi) hb
  have hri : (List.range n).get ⟨i, by simpa using hi⟩ = i := by simp
  rw [hri] at hget
  obtain ⟨fileTables, hne, hm, hconcat⟩ :=
    load_scenario_ok_inv env fdt delta op _ i _ hget
  refine ⟨fileTables, hne, hm, ?_, rfl⟩
  rw [List.getElem?_eq_getElem hb]
  have : tables[i] = tables.get ⟨i, hb⟩ := rfl
  rw [this, hconcat]

/-- C10: load_output_data mutates the configuration mapping it was passed:
after a successful call the keys output_path, num_scenarios,
time_step_format, time_delta and first_time_step have been removed, and the
summary entries and every other key remain, unchanged and in order. -/
theorem C10_load_pops_config_keys (env : Env) (config : Config)
    (tables : List Table) (fmt2 : String) (config2 : Config)
    (hnd : (config.map (fun kv => kv.1)).Nodup)
    (hload : load_output_data env config = .ok ((tables, fmt2), config2)) :
    config2 = config.filter (fun kv =>
      !(kv.1 == "output_path") && !(kv.1 == "num_scenarios") &&
      !(kv.1 == "time_step_format") && !(kv.1 == "time_delta") &&
      !(kv.1 == "first_time_step")) := by
  obtain ⟨op, c1, ns, c2, fmt, c3, td, c4, delta, fts, c5, fdt, n,
    h1, h2, h3, h4, h5, h6, h7, h8, h9, hfmt, hcfg⟩ :=
    load_output_data_ok_inv env config tables fmt2 config2 hload
  subst hcfg
  have e1 := dictPop_some_filter _ _ _ _ hnd h1
  have nd1 : (c1.map (fun kv => kv.1)).Nodup := by
    rw [e1]; exact filter_keys_nodup _ _ hnd
  have e2 := dictPop_some_filter _ _ _ _ nd1 h2
  have nd2 : (c2.map (fun kv => kv.1)).Nodup := by
    rw [e2]; exact filter_keys_nodup _ _ nd1
  have e3 := dictPop_some_filter _ _ _ _ nd2 h3
  have nd3 : (c3.map (fun kv => kv.1)).Nodup := by
    rw [e3]; exact filter_keys_nodup _ _ nd2
  have e4 := dictPop_some_filter _ _ _ _ nd3 h4
  have nd4 : (c4.map (fun kv => kv.1)).Nodup := by
    rw [e4]; exact filter_keys_nodup _ _ nd3
  have e6 := dictPop_some_filter _ _ _ _ nd4 h6
  rw [e6, e4, e3, e2, e1]
  rw [List.filter_filter, List.filter_filter, List.filter_filter, List.filter_filter]
  refine List.filter_congr ?_
  intro kv _
  cases hb1 : (kv.1 == "output_path") <;> cases hb2 : (kv.1 == "num_scenarios") <;>
    cases hb3 : (kv.1 == "time_step_format") <;> cases hb4 : (kv.1 == "time_delta") <;>
    cases hb5 : (kv.1 == "first_time_step") <;> simp [hb1, hb2, hb3, hb4, hb5]

/-- C5 witness: loading the fixture config with two scenarios and one summary
entry returns exactly two tables, each the concatenation of its per-file
tables. -/
theorem C5_one_table_per_scenario_witness :
    (loadTables (load_output_data envOk cfgMain)).length = 2 ∧
    ∀ i, i < 2 →
      ∃ fileTables, fileTables ≠ [] ∧
        mapExcept
          (process_file envOk 0 (okDurOr (parse_time "1h")) (scenarioPath "out" i) "out")
          (([("summary_0.5", "summary_0.5.csv"), ("output_html_file", "dashboard.html")] :
            Config).filter (fun kv => strStarts kv.1 "summary_")) = .ok fileTables ∧
        (loadTables (load_output_data envOk cfgMain))[i]? = some (concatTables fileTables) ∧
        (concatTables fileTables).rows = (fileTables.map (fun tb => tb.rows)).flatten :=
  C5_one_table_per_scenario envOk cfgMain
    (loadTables (load_output_data envOk cfgMain))
    (loadFmt (load_output_data envOk cfgMain))
    (loadCfg (load_output_data envOk cfgMain))
    "out"
    [("num_scenarios", "2"), ("time_step_format", "%Y-%m-%d"), ("time_delta", "1h"),
     ("first_time_step", "2020-03-01"), ("summary_0.5", "summary_0.5.csv"),
     ("output_html_file", "dashboard.html")]
    "2"
    [("time_step_format", "%Y-%m-%d"), ("time_delta", "1h"),
     ("first_time_step", "2020-03-01"), ("summary_0.5", "summary_0.5.csv"),
     ("output_html_file", "dashboard.html")]
    "%Y-%m-%d"
    [("time_delta", "1h"), ("first_time_step", "2020-03-01"),
     ("summary_0.5", "summary_0.5.csv"), ("output_html_file", "dashboard.html")]
    "1h"
    [("first_time_step", "2020-03-01"), ("summary_0.5", "summary_0.5.csv"),
     ("output_html_file", "dashboard.html")]
    (okDurOr (parse_time "1h"))
    "2020-03-01"
    [("summary_0.5", "summary_0.5.csv"), ("output_html_file", "dashboard.html")]
    0 2 rfl rfl rfl rfl rfl rfl rfl rfl rfl

/-- C10 witness: after loading the fixture config, the returned mapping is
the fixture with exactly the five scalar keys removed. -/
theorem C10_load_pops_config_keys_witness :
    loadCfg (load_output_data envOk cfgMain) = cfgMain.filter (fun kv =>
      !(kv.1 == "output_path") && !(kv.1 == "num_scenarios") &&
      !(kv.1 == "time_step_format") && !(kv.1 == "time_delta") &&
      !(kv.1 == "first_time_step")) :=
  C10_load_pops_config_keys envOk cfgMain
    (loadTables (load_output_data envOk cfgMain))
    (loadFmt (load_output_data envOk cfgMain))
    (loadCfg (load_output_data envOk cfgMain))
    (by decide) rfl

/-! ## Lemmas about the figure builder -/

theorem seriesAll_uniform (b : String) (xs : List String) (hne : xs ≠ [])
    (hall : ∀ x ∈ xs, x = b) : seriesAll xs = .str b := by
  cases xs with
  | nil => exact absurd rfl hne
  | cons x rest =>
    have hx : x = b := hall x (by simp)
    subst hx
    have haux : ∀ (l : List String), (∀ y ∈ l, y = x) →
        l.foldl (fun acc y => pyAnd acc (.str y)) (.str x) = .str x := by
      intro l
      induction l with
      | nil => intro _; rfl
      | cons y l2 ih =>
        intro hl
        have hy : y = x := hl y (by simp)
        subst hy
        have hstep : pyAnd (PyVal.str y) (PyVal.str y) = PyVal.str y := by
          unfold pyAnd
          split <;> rfl
        simp only [List.foldl_cons, hstep]
        exact ih (fun z hz => hl z (by simp [hz]))
    exact haux rest (fun y hy => hall y (by simp [hy]))

theorem uniqueFirst_foldl_mem (xs : List String) :
    ∀ (acc : List String) (s : String),
      s ∈ xs.foldl (fun acc x => if acc.contains x then acc else acc ++ [x]) acc ↔
        s ∈ acc ∨ s ∈ xs := by
  induction xs with
  | nil => intro acc s; simp
  | cons x xs ih =>
    intro acc s
    rw [List.foldl_cons, ih]
    have hstep : s ∈ (if acc.contains x then acc else acc ++ [x]) ↔ s ∈ acc ∨ s = x := by
      by_cases hc : acc.contains x = true
      · rw [if_pos hc]
        constructor
        · exact fun h => Or.inl h
        · rintro (h | rfl)
          · exact h
          · exact List.mem_of_elem_eq_true hc
      · rw [if_neg hc]
        simp
    rw [hstep]
    simp only [List.mem_cons]
    tauto

theorem uniqueFirst_mem (xs : List String) (s : String) :
    s ∈ uniqueFirst xs ↔ s ∈ xs := by
  rw [uniqueFirst, uniqueFirst_foldl_mem]
  simp

/-! ## Claim theorems for the figure builder -/

/-- C2: in the figure builder, a nonempty percentile subset whose bound
column is uniformly lower yields an invisible zero-width unfilled line;
uniformly upper yields a zero-width line filled to the previous trace; any
other uniform bound (middle) yields a default-width visible line filled to
the previous trace. -/
theorem C2_trace_bound_classification (rows : List Row) (col p b : String)
    (hne : rows ≠ []) (hb : ∀ r ∈ rows, r.bound = b) :
    ((trace_for rows col p).fill, (trace_for rows col p).fillcolor,
      (trace_for rows col p).mode, (trace_for rows col p).line_width) =
    (if b = "lower" then ("none", none, some "lines", some (0 : ℚ))
     else if b = "upper" then
       ("tonexty", some "rgba(75, 0, 130,0.2)", some "lines", some (0 : ℚ))
     else ("tonexty", some "rgba(75, 0, 130,0.2)", none, none)) := by
  have hsa : seriesAll (rows.map (fun r => r.bound)) = .str b := by
    apply seriesAll_uniform
    · simpa using hne
    · intro x hx
      obtain ⟨r, hr, rfl⟩ := List.mem_map.mp hx
      exact hb r hr
  unfold trace_for
  rw [hsa]
  by_cases h1 : b = "lower"
  · subst h1; simp
  · by_cases h2 : b = "upper"
    · subst h2; simp
    · simp [h1, h2]

/-- C2 witness: a singleton lower-bound subset produces the invisible
zero-width unfilled trace. -/
theorem C2_trace_bound_classification_witness :
    ((trace_for [mkRow "0.1" "lower"] "cases" "0.1").fill,
      (trace_for [mkRow "0.1" "lower"] "cases" "0.1").fillcolor,
      (trace_for [mkRow "0.1" "lower"] "cases" "0.1").mode,
      (trace_for [mkRow "0.1" "lower"] "cases" "0.1").line_width) =
    (if "lower" = "lower" then ("none", none, some "lines", some (0 : ℚ))
     else if "lower" = "upper" then
       ("tonexty", some "rgba(75, 0, 130,0.2)", some "lines", some (0 : ℚ))
     else ("tonexty", some "rgba(75, 0, 130,0.2)", none, none)) :=
  C2_trace_bound_classification [mkRow "0.1" "lower"] "cases" "0.1" "lower"
    (by simp) (by simp [mkRow])

/-- C7: within each figure the percentile subsets are iterated in
lexicographic string order of the distinct raw percentile strings: the
iteration list is sorted under the code-point order on strings and contains
exactly the percentile values present; on percentile strings 9 and 10 the
traversal is 10 before 9 (string order, not numeric order). -/
theorem C7_percentiles_string_sorted :
    (∀ df : Table,
      List.Sorted (· ≤ ·) (percentilesOf df) ∧
      ∀ s, s ∈ percentilesOf df ↔ s ∈ df.rows.map (fun r => r.percentile)) ∧
    percentilesOf exampleDf = ["10", "9"] := by
  constructor
  · intro df
    constructor
    · exact List.sorted_insertionSort (· ≤ ·) _
    · intro s
      rw [percentilesOf, pySorted, List.mem_insertionSort]
      exact uniqueFirst_mem _ s
  · have h9 : ¬ ("9" ≤ "10") := by
      rw [String.le_iff_toList_le]
      decide
    have hu : uniqueFirst (exampleDf.rows.map (fun r => r.percentile)) = ["9", "10"] := rfl
    rw [percentilesOf, hu, pySorted]
    simp only [List.insertionSort, List.orderedInsert_nil]
    rw [List.orderedInsert, if_neg h9]
    rfl

theorem labelLookup_keys (labels : List (String × String))
    (hk : (labels.map (fun kv => kv.1)).Nodup) :
    (labels.map (fun kv => kv.1)).map (labelLookup labels)
      = labels.map (fun kv => kv.2) := by
  induction labels with
  | nil => rfl
  | cons kv rest ih =>
    obtain ⟨k, v⟩ := kv
    rw [List.map_cons] at hk
    have hnd0 := List.nodup_cons.mp hk
    have hhead : labelLookup ((k, v) :: rest) k = v := by
      unfold labelLookup
      rw [List.find?_cons_of_pos _ (by simp)]
    have htail : (rest.map (fun kv => kv.1)).map (labelLookup ((k, v) :: rest))
        = (rest.map (fun kv => kv.1)).map (labelLookup rest) := by
      refine List.map_congr_left ?_
      intro k2 hk2
      have hne : (k == k2) = false := by
        have : k ≠ k2 := fun hc => hnd0.1 (hc ▸ hk2)
        simpa using this
      unfold labelLookup
      rw [List.find?_cons_of_neg _ (by simpa using hne)]
    simp only [List.map_cons, hhead, htail, ih hnd0.2]

theorem dictInsert_fold_keys (lk : String → String) (F : String → Fig) :
    ∀ (ks : List String) (acc : List (String × Fig)),
      (ks.map lk).Nodup →
      (∀ y ∈ ks, lk y ∉ acc.map (fun kv => kv.1)) →
      ((ks.foldl (fun figures y => dictInsert (lk y) (F y) figures) acc).map
        (fun kv => kv.1)) = acc.map (fun kv => kv.1) ++ ks.map lk := by
  intro ks
  induction ks with
  | nil => intro acc _ _; simp
  | cons y ks ih =>
    intro acc hnd hdisj
    rw [List.map_cons] at hnd
    have hnd0 := List.nodup_cons.mp hnd
    have hnotin : lk y ∉ acc.map (fun kv => kv.1) := hdisj y (by simp)
    have hins : dictInsert (lk y) (F y) acc = acc ++ [(lk y, F y)] := by
      unfold dictInsert
      rw [if_neg ?_]
      intro hc
      rcases List.any_eq_true.mp hc with ⟨kv, hkv, hbeq⟩
      exact hnotin (List.mem_map.mpr ⟨kv, hkv, by simpa using hbeq⟩)
    rw [List.foldl_cons, hins]
    have hdisj2 : ∀ y2 ∈ ks, lk y2 ∉ (acc ++ [(lk y, F y)]).map (fun kv => kv.1) := by
      intro y2 hy2
      rw [List.map_append]
      intro hc
      rcases List.mem_append.mp hc with hin | hin
      · exact hdisj y2 (by simp [hy2]) hin
      · have : lk y2 = lk y := by simpa using hin
        exact hnd0.1 (this ▸ List.mem_map.mpr ⟨y2, hy2, rfl⟩)
    rw [ih (acc ++ [(lk y, F y)]) hnd0.2 hdisj2]
    simp

/-- C8: for every scenario, the figure builder's output mapping has exactly
the label file's display titles as keys, in label-file order, independent of
the scenario table's columns; a column absent from the label mapping can
therefore never produce a figure. -/
theorem C8_figure_keys_are_label_titles (dfs : List Table)
    (labels : List (String × String)) (fmt : String)
    (hk : (labels.map (fun kv => kv.1)).Nodup)
    (hv : (labels.map (fun kv => kv.2)).Nodup) :
    (make_figure dfs labels fmt).map (fun m => m.map (fun kv => kv.1))
      = dfs.map (fun _ => labels.map (fun kv => kv.2)) := by
  unfold make_figure
  rw [List.map_map]
  refine List.map_congr_left ?_
  intro df _
  show ((labels.map (fun kv => kv.1)).foldl
      (fun figures y =>
        dictInsert (labelLookup labels y) (build_figure df labels fmt y) figures)
      []).map (fun kv => kv.1) = labels.map (fun kv => kv.2)
  have hnd2 : ((labels.map (fun kv => kv.1)).map (labelLookup labels)).Nodup := by
    rw [labelLookup_keys labels hk]
    exact hv
  rw [dictInsert_fold_keys (labelLookup labels) (build_figure df labels fmt)
      (labels.map (fun kv => kv.1)) [] hnd2 (by simp)]
  simpa using labelLookup_keys labels hk

/-- C8 witness: with the two-entry label fixture, the single scenario yields
exactly the two display titles as keys, in order. -/
theorem C8_figure_keys_are_label_titles_witness :
    (make_figure [exampleDf] labelsMain "%Y-%m-%d").map (fun m => m.map (fun kv => kv.1))
      = [exampleDf].map (fun _ => labelsMain.map (fun kv => kv.2)) :=
  C8_figure_keys_are_label_titles [exampleDf] labelsMain "%Y-%m-%d"
    (by decide) (by decide)

/-! ## Claim theorems for the dashboard renderer -/

theorem writeFigs_preserves (toHtml : F → String) :
    ∀ (figs : List (String × F)) (d : Dashboard),
      (resultDashboard (writeFigs toHtml figs d)).closed = d.closed ∧
      (resultDashboard (writeFigs toHtml figs d)).path = d.path := by
  intro figs
  induction figs with
  | nil => intro d; exact ⟨rfl, rfl⟩
  | cons kv rest ih =>
    intro d
    obtain ⟨k, v⟩ := kv
    unfold writeFigs
    split
    · exact ⟨rfl, rfl⟩
    · rename_i inner hinner
      exact ih (fwrite d inner)

/-- C9, counterexample: the renderer completes normally (no exception) on an
empty figure mapping and the destination handle is still open at return; the
claim that the handle is closed on every exit path is false because the
source never calls close and uses no with-block. -/
theorem C9_handle_left_open_counterexample :
    isOkE (figures_to_html (fun s : String => s) [] "dashboard.html") = true ∧
      (resultDashboard (figures_to_html (fun s : String => s) [] "dashboard.html")).closed
        = false :=
  ⟨rfl, rfl⟩

/-- C9 (amended): the renderer opens exactly one handle, for the destination
path, and on every exit path (normal completion or an escaping write-loop
error) that handle remains open: no exit path closes it. -/
theorem C9_handle_never_closed (toHtml : F → String)
    (figs : List (String × F)) (filename : String) :
    (resultDashboard (figures_to_html toHtml figs filename)).closed = false ∧
    (resultDashboard (figures_to_html toHtml figs filename)).path = filename := by
  unfold figures_to_html
  dsimp only
  have h := writeFigs_preserves toHtml figs
    (fwrite { path := filename, chunks := [], closed := false } dashboardHeader)
  split
  · rename_i d hd
    rw [hd] at h
    exact h
  · rename_i d hd
    rw [hd] at h
    exact h

end Plot
